import Mathlib

/-!
Verification development for the `apca` client core: the generic
request-dispatch and response-decoding pipeline (`Client::issue`), the
status-code-driven result conversion, and the event-subscription
mechanism (`Client::subscribe`).

The pipeline structure is embedded from `src/client.rs`.  The `Endpoint`
contract, `ConvertResult` conversion, and the `events::stream` helper are
declared in repository modules whose sources are not available here; those
are modelled from the specification (sections 3, 4.1, 4.3 and 6), each such
definition carrying a doc comment that says so.

Bytes are modelled as `List Nat`, HTTP status codes as `Nat`.
-/

/-- An opaque transport-level error of the underlying HTTP library
(`hyper::Error`): connection refused, TLS failure, timeout, or a failure
while streaming the response body. -/
structure HyperError where
  msg : String
deriving DecidableEq, Repr

/-- An error of request construction (`crate::Error`), the error type of the
outer `Result` returned by `Client::issue`. -/
structure CrateError where
  msg : String
deriving DecidableEq, Repr

/-- An HTTP request: method, URL, header set (name/value pairs with raw byte
values), optional body.  Mirrors the `HttpRequest` shape of the data model. -/
structure HttpRequest where
  method : String
  url : String
  headers : List (String × List Nat)
  body : List Nat
deriving DecidableEq, Repr

/-- The generic error domain of the `Error` type of an endpoint: a
documented endpoint-specific variant, the catch-all unexpected-status
variant carrying the raw code, the malformed-body (decode) variant, and the
transport variant produced by `R::Error::from` on a `hyper::Error`.
Modelled from the spec: the `EndpointDef!` macro that emits these variant
sets is not under `src/`; section 7 fixes the taxonomy. -/
inductive ApiError (E : Type) where
  | endpoint : E → ApiError E
  | unexpectedStatus : Nat → ApiError E
  | malformedBody : ApiError E
  | transport : HyperError → ApiError E
deriving DecidableEq, Repr

/-- `ConvertResult<Output, Error>`: the tagged result constructed from
`(StatusCode, Vec<u8>)`. -/
inductive ConvertResult (O E : Type) where
  | ok : O → ConvertResult O E
  | err : E → ConvertResult O E
deriving DecidableEq, Repr

/-- `Into::<Result<_, _>>::into` applied to a `ConvertResult`, as done at
the end of the future built in `Client::issue`. -/
def ConvertResult.toResult : ConvertResult O E → Except E O
  | .ok o => .ok o
  | .err e => .error e

/-- The `Endpoint` contract: how to build a request from a typed input
(with base address and the two credentials), how to parse a success body
into `Output`, and which non-success status codes have a recognized error
schema (each giving a parser of the body into the endpoint-specific error).
Modelled from the spec: `src/endpoint.rs` is not under `src/`; sections 3
and 4.1 describe the contract. -/
structure Endpoint (Input Output Err : Type) where
  request : String → List Nat → List Nat → Input → Except CrateError HttpRequest
  parseOutput : List Nat → Option Output
  errorSchema : Nat → Option (List Nat → Option Err)

/-- Whether a status code counts as success (2xx). -/
def isSuccessStatus (status : Nat) : Bool :=
  200 ≤ status && status < 300

/-- `ConvertResult::from((status, bytes))`: decide success vs failure purely
from the status code; on success parse the body against the Output schema;
on a recognized non-success code parse the body against that error schema;
on an unrecognized code return the unexpected-status error carrying the raw
code; a parse failure surfaces as the malformed-body variant.
Modelled from the spec: the `From<(StatusCode, Vec<u8>)>` impl emitted by
`EndpointDef!` is not under `src/`; section 4.1 describes it. -/
def convertResultFrom (ep : Endpoint I O E) (status : Nat) (body : List Nat) :
    ConvertResult O (ApiError E) :=
  if isSuccessStatus status then
    match ep.parseOutput body with
    | some o => .ok o
    | none => .err .malformedBody
  else
    match ep.errorSchema status with
    | some parse =>
      match parse body with
      | some e => .err (.endpoint e)
      | none => .err .malformedBody
    | none => .err (.unexpectedStatus status)

/-- `R::Error::from` on a `hyper::Error`: the transport-error variant. -/
def errorFromHyper (E : Type) (e : HyperError) : ApiError E :=
  .transport e

/-- The possible resolutions of the network exchange performed by the future
in `Client::issue`: the request future fails before any response arrives
(`self.client.request(req)` errors), a response with its status arrives but
receiving the body fails (`concat2` errors), or a response arrives and the
body is received completely, as a sequence of chunks. -/
inductive HttpOutcome where
  | connectFailure : HyperError → HttpOutcome
  | bodyFailure : Nat → HyperError → HttpOutcome
  | complete : Nat → List (List Nat) → HttpOutcome
deriving DecidableEq, Repr

/-- The first stage of the future in `Client::issue`
(`.and_then(|res| { let status = res.status(); res.into_body().concat2()
.map(move |body| (status, body)) })`): wait for the entire body, concatenate
its chunks, and pair the result with the status.  A `hyper` error from
either the request or the body concatenation propagates. -/
def receiveBody : HttpOutcome → Except HyperError (Nat × List Nat)
  | .connectFailure e => .error e
  | .bodyFailure _ e => .error e
  | .complete status chunks => .ok (status, chunks.flatten)

/-- The complete future built in `Client::issue`: receive status and full
body, map transport errors through `R::Error::from`, then apply
`ConvertResult::from((status, body))` and convert it into a `Result`. -/
def issueFuture (ep : Endpoint I O E) (outcome : HttpOutcome) :
    Except (ApiError E) O :=
  match receiveBody outcome with
  | .error e => .error (errorFromHyper E e)
  | .ok (status, body) => (convertResultFrom ep status body).toResult

/-- A diagnostic record emitted by `Client::issue` (`debug!`/`info!`). -/
inductive LogRecord where
  | requestDebug : HttpRequest → LogRecord
  | requestInfo : String → String → LogRecord
deriving DecidableEq, Repr

/-- The `Client`: API base address, the two credentials, and the pooled
HTTP connection (modelled as an opaque handle). -/
structure Client where
  api_base : String
  key_id : List Nat
  secret : List Nat
  client : Nat
deriving DecidableEq, Repr

/-- The synchronous part of `Client::issue`: build the request via
`R::request(&self.api_base, &self.key_id, &self.secret, &input)?` — a
failure propagates immediately as the outer `Err` — then emit the request
diagnostic (full detail when debug logging is enabled, a summary otherwise)
and return the future that performs the exchange and conversion. -/
def issue (c : Client) (ep : Endpoint I O E) (debugEnabled : Bool) (input : I) :
    Except CrateError (List LogRecord × (HttpOutcome → Except (ApiError E) O)) :=
  match ep.request c.api_base c.key_id c.secret input with
  | .error e => .error e
  | .ok req =>
    .ok ( if debugEnabled then [LogRecord.requestDebug req]
          else [LogRecord.requestInfo req.method req.url]
        , fun outcome => issueFuture ep outcome)

/-- The name of the authentication header carrying the raw key id.
Modelled from the spec: section 6 requires two authentication headers
carrying the raw key id and secret. -/
def keyIdHeader : String := "APCA-API-KEY-ID"

/-- The name of the authentication header carrying the raw secret.
Modelled from the spec: section 6 requires two authentication headers
carrying the raw key id and secret. -/
def secretHeader : String := "APCA-API-SECRET-KEY"

/-- The default request construction shared by the endpoint definitions.
Modelled from the spec: the request builder emitted for each endpoint is not
under `src/`; per sections 4.1 and 6 it deterministically assembles method,
URL (base plus path plus query, built from the input) and the two
credential-bearing headers with the raw key id and secret, with no other
effect. -/
def specRequest (apiBase : String) (keyId secret : List Nat)
    (method path query : String) (body : List Nat) : HttpRequest :=
  { method := method
  , url := apiBase ++ path ++ query
  , headers := [(keyIdHeader, keyId), (secretHeader, secret)]
  , body := body }

/-- An endpoint assembled the way the declarative endpoint definitions do
it: a method, a path and query derived from the input, an optional body,
and the two schemas; its `request` never fails.  Modelled from the spec:
the per-endpoint code generation is not under `src/`. -/
def mkEndpoint (method : String) (path query : I → String)
    (body : I → List Nat) (parseOutput : List Nat → Option O)
    (errorSchema : Nat → Option (List Nat → Option E)) : Endpoint I O E :=
  { request := fun base key sec input =>
      .ok (specRequest base key sec method (path input) (query input) (body input))
  , parseOutput := parseOutput
  , errorSchema := errorSchema }

/-- The `EventStream` contract: the connection target derived from the base
address, the handshake message built from the two credentials, and the rule
decoding each inbound frame into zero or one typed event.  Modelled from
the spec: `src/events.rs` is not under `src/`; sections 3, 4.3 and 6
describe the contract. -/
structure EventStream (Event : Type) where
  url : String → String
  handshake : List Nat → List Nat → List Nat
  decode : List Nat → Option Event

/-- The events a subscription yields for a given sequence of inbound wire
frames, paired with the index of the frame each event was decoded from,
starting at index `n`.  Frames that do not decode are dropped. -/
def streamEventsFrom (s : EventStream Ev) (n : Nat) :
    List (List Nat) → List (Nat × Ev)
  | [] => []
  | f :: fs =>
    match s.decode f with
    | some e => (n, e) :: streamEventsFrom s (n + 1) fs
    | none => streamEventsFrom s (n + 1) fs

/-- The events a subscription yields, each paired with the index of the
wire frame it was decoded from. -/
def streamEventsIdx (s : EventStream Ev) (frames : List (List Nat)) :
    List (Nat × Ev) :=
  streamEventsFrom s 0 frames

/-- `events::stream`: open the connection to the URL derived from the base
address, send the handshake message built from the credentials, and expose
the sequence of typed events obtained by independently decoding each
inbound frame, in arrival order.  Modelled from the spec: `src/events.rs`
is not under `src/`; section 4.3 describes the procedure.  The connection
and frame arrival are abstracted as the list of inbound frames. -/
def stream (s : EventStream Ev) (apiBase : String) (keyId secret : List Nat) :
    String × List Nat × (List (List Nat) → List Ev) :=
  (s.url apiBase, s.handshake keyId secret, fun frames => frames.filterMap s.decode)

/-- `Client::subscribe`: delegate to `events::stream` with clones of the
api base and the two credentials, exactly as `src/client.rs` does. -/
def subscribe (c : Client) (s : EventStream Ev) :
    String × List Nat × (List (List Nat) → List Ev) :=
  stream s c.api_base c.key_id c.secret

/-- `Client::issue` as a state-passing operation: the method borrows the
client immutably (`&self`), so the client state it leaves behind is the
state it was given. -/
def issueCall (c : Client) (ep : Endpoint I O E) (debugEnabled : Bool)
    (input : I) :
    Except CrateError (List LogRecord × (HttpOutcome → Except (ApiError E) O))
      × Client :=
  (issue c ep debugEnabled input, c)

/-- `Client::subscribe` as a state-passing operation: the method borrows
the client immutably (`&self`) and clones the fields it passes on. -/
def subscribeCall (c : Client) (s : EventStream Ev) :
    (String × List Nat × (List (List Nat) → List Ev)) × Client :=
  (subscribe c s, c)

/-- A concrete endpoint for evaluation, shaped like the `GetNotFound` test
endpoint of `src/client.rs`: trivial input and output, no recognized error
schema for any status code. -/
def unitEndpoint : Endpoint Unit Unit Unit :=
  mkEndpoint "GET" (fun _ => "/v1/foobarbaz") (fun _ => "")
    (fun _ => []) (fun _ => some ()) (fun _ => none)

/-- A concrete client value for evaluation. -/
def testClient : Client :=
  { api_base := "https://api.example.com", key_id := [10, 11]
  , secret := [20, 21], client := 0 }

/-- A concrete endpoint whose request construction always fails, for
evaluating the synchronous error path of `Client::issue`. -/
def failEndpoint : Endpoint Unit Unit Unit :=
  { request := fun _ _ _ _ => .error { msg := "bad request" }
  , parseOutput := fun _ => some ()
  , errorSchema := fun _ => none }

/-- A concrete event stream for evaluation: a frame decodes to its first
byte when that byte is nonzero, and is ignored otherwise. -/
def natStream : EventStream Nat :=
  { url := fun base => base ++ "/stream"
  , handshake := fun key sec => key ++ sec
  , decode := fun f =>
      match f with
      | [] => none
      | b :: _ => if b = 0 then none else some b }

/- ------------------------------------------------------------------ -/
/- Helper lemmas about the indexed event sequence.                     -/
/- ------------------------------------------------------------------ -/

theorem streamEventsFrom_lower (s : EventStream Ev) (fs : List (List Nat)) :
    ∀ n, ∀ p ∈ streamEventsFrom s n fs, n ≤ p.1 := by
  induction fs with
  | nil => intro n p hp; simp [streamEventsFrom] at hp
  | cons f fs ih =>
    intro n p hp
    cases h : s.decode f with
    | some e =>
      simp only [streamEventsFrom, h, List.mem_cons] at hp
      rcases hp with rfl | hp
      · exact Nat.le_refl n
      · exact Nat.le_of_succ_le (ih (n + 1) p hp)
    | none =>
      simp only [streamEventsFrom, h] at hp
      exact Nat.le_of_succ_le (ih (n + 1) p hp)

theorem streamEventsFrom_pairwise (s : EventStream Ev) (fs : List (List Nat)) :
    ∀ n, List.Pairwise (fun a b : Nat × Ev => a.1 < b.1)
      (streamEventsFrom s n fs) := by
  induction fs with
  | nil => intro n; simp [streamEventsFrom]
  | cons f fs ih =>
    intro n
    cases h : s.decode f with
    | some e =>
      simp only [streamEventsFrom, h]
      refine List.Pairwise.cons ?_ (ih (n + 1))
      intro b hb
      exact Nat.lt_of_lt_of_le (Nat.lt_succ_self n)
        (streamEventsFrom_lower s fs (n + 1) b hb)
    | none =>
      simp only [streamEventsFrom, h]
      exact ih (n + 1)

theorem streamEventsFrom_map_snd (s : EventStream Ev) (fs : List (List Nat)) :
    ∀ n, (streamEventsFrom s n fs).map Prod.snd = fs.filterMap s.decode := by
  induction fs with
  | nil => intro n; simp [streamEventsFrom]
  | cons f fs ih =>
    intro n
    cases h : s.decode f <;>
      simp [streamEventsFrom, h, List.filterMap_cons, ih]

theorem streamEventsFrom_src (s : EventStream Ev) (fs : List (List Nat)) :
    ∀ n, ∀ p ∈ streamEventsFrom s n fs,
      ∃ f, fs.get? (p.1 - n) = some f ∧ s.decode f = some p.2 := by
  induction fs with
  | nil => intro n p hp; simp [streamEventsFrom] at hp
  | cons f fs ih =>
    intro n p hp
    cases h : s.decode f with
    | some e =>
      simp only [streamEventsFrom, h, List.mem_cons] at hp
      rcases hp with rfl | hp
      · exact ⟨f, by simp, by simp [h]⟩
      · obtain ⟨g, hg, hd⟩ := ih (n + 1) p hp
        have hle := streamEventsFrom_lower s fs (n + 1) p hp
        have hidx : p.1 - n = (p.1 - (n + 1)) + 1 := by omega
        exact ⟨g, by rw [hidx]; simpa using hg, hd⟩
    | none =>
      simp only [streamEventsFrom, h] at hp
      obtain ⟨g, hg, hd⟩ := ih (n + 1) p hp
      have hle := streamEventsFrom_lower s fs (n + 1) p hp
      have hidx : p.1 - n = (p.1 - (n + 1)) + 1 := by omega
      exact ⟨g, by rw [hidx]; simpa using hg, hd⟩

theorem convert_toResult_not_transport (ep : Endpoint I O E) (status : Nat)
    (body : List Nat) (e : HyperError) :
    (convertResultFrom ep status body).toResult ≠ .error (.transport e) := by
  unfold convertResultFrom
  split
  · cases h : ep.parseOutput body <;> simp [ConvertResult.toResult, h]
  · cases h : ep.errorSchema status with
    | some parse =>
      cases h2 : parse body <;> simp [ConvertResult.toResult, h, h2]
    | none => simp [ConvertResult.toResult, h]

/- ------------------------------------------------------------------ -/
/- Claims.                                                             -/
/- ------------------------------------------------------------------ -/

/-- Claim C1: for every pair of status code and body bytes, result
conversion returns exactly one of: a typed Output, a documented error
variant (endpoint-specific or malformed-body), or the unexpected-status
variant carrying the raw code — it is total and leaves no case
unhandled. -/
theorem claim_C1_convert_total (ep : Endpoint I O E) (status : Nat)
    (body : List Nat) :
    (∃ o, convertResultFrom ep status body = .ok o)
    ∨ (∃ e, convertResultFrom ep status body = .err (.endpoint e))
    ∨ convertResultFrom ep status body = .err .malformedBody
    ∨ convertResultFrom ep status body = .err (.unexpectedStatus status) := by
  unfold convertResultFrom
  split
  · cases h : ep.parseOutput body with
    | some o => exact Or.inl ⟨o, by simp [h]⟩
    | none => exact Or.inr (Or.inr (Or.inl (by simp [h])))
  · cases h : ep.errorSchema status with
    | some parse =>
      cases h2 : parse body with
      | some e => exact Or.inr (Or.inl ⟨e, by simp [h, h2]⟩)
      | none => exact Or.inr (Or.inr (Or.inl (by simp [h, h2])))
    | none => exact Or.inr (Or.inr (Or.inr (by simp [h])))

/-- Claim C2: under the invariant that request construction is total over
the Input domain of the endpoint, `Client::issue` never takes its error
branch — it returns the diagnostic records and the response future. -/
theorem claim_C2_issue_ok (c : Client) (ep : Endpoint I O E) (dbg : Bool)
    (input : I)
    (h : ∀ base key sec i, ∃ req, ep.request base key sec i = Except.ok req) :
    ∃ logs fut, issue c ep dbg input = .ok (logs, fut) := by
  obtain ⟨req, hreq⟩ := h c.api_base c.key_id c.secret input
  refine ⟨ if dbg then [LogRecord.requestDebug req]
           else [LogRecord.requestInfo req.method req.url]
         , fun outcome => issueFuture ep outcome, ?_⟩
  unfold issue
  rw [hreq]

theorem claim_C2_witness :
    ∃ logs fut, issue testClient unitEndpoint true () = .ok (logs, fut) :=
  claim_C2_issue_ok testClient unitEndpoint true ()
    (fun _ _ _ _ => ⟨_, rfl⟩)

/-- Claim C3 fails as stated at a concrete input: when the connection drops
while the body is being received — that is, after status 200 has already
been received — the future resolves to the transport-error variant produced
by `R::Error::from`, and no application of result conversion ever produces
that value, so this outcome after a received status code is not decided by
result conversion. -/
theorem claim_C3_counterexample :
    issueFuture unitEndpoint
        (.bodyFailure 200 { msg := "connection reset" })
      = .error (.transport { msg := "connection reset" })
    ∧ ∀ status body,
        (convertResultFrom unitEndpoint status body).toResult
          ≠ issueFuture unitEndpoint
              (.bodyFailure 200 { msg := "connection reset" }) := by
  refine ⟨rfl, fun status body => ?_⟩
  exact convert_toResult_not_transport unitEndpoint status body
    { msg := "connection reset" }

/-- Claim C3 (amended): any transport-level failure occurring before a
status code is received, or while the response body is being received,
surfaces to the caller as the transport-error variant via `R::Error::from`
on the hyper error; any exchange whose complete body is received is decided
solely by result conversion; no error is silently swallowed or replaced by
a default value. -/
theorem claim_C3_transport_surface (ep : Endpoint I O E) :
    (∀ e, issueFuture ep (.connectFailure e) = .error (errorFromHyper E e))
    ∧ (∀ status e,
        issueFuture ep (.bodyFailure status e) = .error (errorFromHyper E e))
    ∧ (∀ status chunks, issueFuture ep (.complete status chunks)
        = (convertResultFrom ep status chunks.flatten).toResult) :=
  ⟨fun _ => rfl, fun _ _ => rfl, fun _ _ => rfl⟩

/-- Claim C4: for every non-stream request the entire response body is
received and concatenated before result conversion is applied: the future
applies conversion exactly to the status paired with the concatenation of
all body chunks, and when the body could not be fully received conversion
is not applied at all (the transport variant is returned instead). -/
theorem claim_C4_full_body (ep : Endpoint I O E) :
    (∀ status chunks,
        receiveBody (.complete status chunks) = .ok (status, chunks.flatten))
    ∧ (∀ status chunks, issueFuture ep (.complete status chunks)
        = (convertResultFrom ep status chunks.flatten).toResult)
    ∧ (∀ status e,
        issueFuture ep (.bodyFailure status e) = .error (.transport e)) :=
  ⟨fun _ _ => rfl, fun _ _ => rfl, fun _ _ => rfl⟩

/-- Claim C5: for an endpoint with no recognized error schema for status
code 404, a fully received response with status 404 yields the
unexpected-status error carrying exactly the code 404. -/
theorem claim_C5_unexpected_404 (ep : Endpoint I O E)
    (chunks : List (List Nat)) (h : ep.errorSchema 404 = none) :
    issueFuture ep (.complete 404 chunks) = .error (.unexpectedStatus 404) := by
  show (convertResultFrom ep 404 chunks.flatten).toResult = _
  unfold convertResultFrom
  rw [show isSuccessStatus 404 = false from rfl]
  simp [h, ConvertResult.toResult]

theorem claim_C5_witness :
    issueFuture unitEndpoint (.complete 404 [[1, 2], [3]])
      = .error (.unexpectedStatus 404) :=
  claim_C5_unexpected_404 unitEndpoint [[1, 2], [3]] rfl

/-- Claim C6: for every endpoint assembled by the declarative endpoint
definitions and every input, the HTTP request built inside `Client::issue`
carries headers containing exactly the two credential values supplied at
Client construction, byte for byte unmodified; with debug logging enabled,
`issue` records exactly this request and returns the conversion future. -/
theorem claim_C6_credential_headers (c : Client) (method : String)
    (path query : I → String) (body : I → List Nat)
    (po : List Nat → Option O) (es : Nat → Option (List Nat → Option E))
    (input : I) :
    ∃ req,
      (mkEndpoint method path query body po es).request
          c.api_base c.key_id c.secret input = .ok req
      ∧ req.headers = [(keyIdHeader, c.key_id), (secretHeader, c.secret)]
      ∧ issue c (mkEndpoint method path query body po es) true input
          = .ok ( [LogRecord.requestDebug req]
                , fun outcome =>
                    issueFuture (mkEndpoint method path query body po es)
                      outcome) :=
  ⟨_, rfl, rfl, rfl⟩

/-- Claim C7: the stream returned by `Client::subscribe` yields, for any
sequence of wire frames, exactly the events obtained by decoding the frames
in arrival order; pairing each yielded event with the index of the wire
frame it was decoded from, the indices are strictly increasing, so no two
events are ever yielded out of wire order and no reordering or extra
buffering occurs. -/
theorem claim_C7_wire_order (c : Client) (s : EventStream Ev)
    (frames : List (List Nat)) :
    (subscribe c s).2.2 frames = (streamEventsIdx s frames).map Prod.snd
    ∧ List.Pairwise (fun a b : Nat × Ev => a.1 < b.1)
        (streamEventsIdx s frames)
    ∧ ∀ p ∈ streamEventsIdx s frames,
        ∃ f, frames.get? p.1 = some f ∧ s.decode f = some p.2 := by
  refine ⟨?_, streamEventsFrom_pairwise s frames 0, ?_⟩
  · show frames.filterMap s.decode = _
    rw [streamEventsIdx, streamEventsFrom_map_snd s frames 0]
  · intro p hp
    have h := streamEventsFrom_src s frames 0 p hp
    simpa using h

theorem claim_C7_witness :
    ∃ f, [[0], [5], [7]].get? 1 = some f ∧ natStream.decode f = some 5 :=
  (claim_C7_wire_order testClient natStream [[0], [5], [7]]).2.2 (1, 5)
    (by decide)

/-- Claim C8: result conversion is deterministic — applied to equal pairs
of status code and body bytes it returns equal typed results; it depends on
nothing besides its two arguments. -/
theorem claim_C8_deterministic (ep : Endpoint I O E) (s1 s2 : Nat)
    (b1 b2 : List Nat) (h : (s1, b1) = (s2, b2)) :
    convertResultFrom ep s1 b1 = convertResultFrom ep s2 b2 := by
  injection h with h1 h2
  rw [h1, h2]

theorem claim_C8_witness :
    convertResultFrom unitEndpoint 200 [1] = convertResultFrom unitEndpoint 200 [1] :=
  claim_C8_deterministic unitEndpoint 200 200 [1] [1] rfl

/-- Claim C9: the credentials and api base stored in a Client are never
mutated after construction: `issue` and `subscribe` leave every field of
the Client unchanged, and a call performed on the state left behind by a
previous call returns exactly what it returns on the original client — no
call observes state mutated by a previous call. -/
theorem claim_C9_no_mutation (c : Client) (ep : Endpoint I O E) (dbg : Bool)
    (input : I) (s : EventStream Ev) :
    (issueCall c ep dbg input).2 = c
    ∧ (subscribeCall c s).2 = c
    ∧ issueCall (issueCall c ep dbg input).2 ep dbg input
        = issueCall c ep dbg input
    ∧ subscribeCall (issueCall c ep dbg input).2 s = subscribeCall c s :=
  ⟨rfl, rfl, rfl, rfl⟩

/-- Claim C10: when request construction fails, `Client::issue` returns the
outer error immediately — no diagnostic record and no future are produced;
conversely, whenever `issue` returns Ok, request construction succeeded,
the diagnostic record describes that request, and every subsequent failure
is delivered only through the returned future as the typed endpoint
error. -/
theorem claim_C10_sync_error (c : Client) (ep : Endpoint I O E) (dbg : Bool)
    (input : I) :
    (∀ e, ep.request c.api_base c.key_id c.secret input = .error e →
      issue c ep dbg input = .error e)
    ∧ (∀ logs fut, issue c ep dbg input = .ok (logs, fut) →
      ∃ req, ep.request c.api_base c.key_id c.secret input = .ok req
        ∧ logs = ( if dbg then [LogRecord.requestDebug req]
                   else [LogRecord.requestInfo req.method req.url])
        ∧ ∀ outcome, fut outcome = issueFuture ep outcome) := by
  constructor
  · intro e h
    unfold issue
    rw [h]
  · intro logs fut h
    unfold issue at h
    split at h
    · exact Except.noConfusion h
    · rename_i req heq
      simp only [Except.ok.injEq, Prod.mk.injEq] at h
      obtain ⟨h1, h2⟩ := h
      exact ⟨req, heq, h1.symm, fun outcome => by rw [← h2]⟩

theorem claim_C10_witness :
    issue testClient failEndpoint true () = .error { msg := "bad request" } :=
  (claim_C10_sync_error testClient failEndpoint true ()).1
    { msg := "bad request" } rfl
